import Mathlib

/-!
Verification of the taxonomic tree engine of recentrifuge
(src/bin/recentrifuge/recentrifuge/trees.py): the TaxTree (single-sample)
and MultiTree (multi-sample) classes with their growth, shaping, pruning,
extraction and lineage-tracing operations.

Modelling conventions.  A Python TaxTree object is simultaneously a dict
(child taxid to subtree, in insertion order) and a record of counts,
taxlevel, score and acc; it is modelled as a node of the mutual inductive
TaxTree / TaxForest, where TaxForest is the ordered association list of
children.  Python ints holding read counts are modelled as Nat, Python
float scores as exact rationals, taxids and ranks as Nat.  In-place
mutation is modelled by returning the new value; the recursive methods
become mutually recursive functions on tree and forest.
-/

namespace Recentrifuge

/-- Taxonomic identifier (config.py TaxId; modelled as Nat). -/
abbrev TaxId := Nat

/-- Taxonomic rank (rank.py Rank enum; modelled as Nat since trees.py only
uses its total order and identity of members). -/
abbrev Rank := Nat

/-- Python float score, modelled as an exact rational. -/
abbrev Score := ℚ

/-- Modelled from the spec: the distinguished root taxid used as universal
ancestor (config.py ROOT, config.py is not under src). -/
def ROOT : TaxId := 1

/-- Modelled from the spec: the reserved sentinel score meaning that no
score is available (config.py NO_SCORE, config.py is not under src). -/
def NO_SCORE : Score := -1

/-- The external Taxonomy Graph collaborator (taxonomy.py, not under src).
Spec section 6: children_of as a finite association list (an absent entry
means no children), rank_of as a total lookup. -/
structure Taxonomy where
  children : List (TaxId × List TaxId)
  rankOf : TaxId → Rank

mutual

/-- A node of the single-sample tree (class TaxTree of trees.py): fields
counts, taxlevel, score, acc and the dict of children. -/
inductive TaxTree : Type where
  | mk (counts : Nat) (taxlevel : Rank) (score : Score) (acc : Nat)
      (children : TaxForest) : TaxTree
deriving DecidableEq

/-- The dict part of a TaxTree: ordered association list from child taxid
to subtree. -/
inductive TaxForest : Type where
  | nil : TaxForest
  | cons (tid : TaxId) (t : TaxTree) (rest : TaxForest) : TaxForest
deriving DecidableEq

end

/-- Field counts: reads directly assigned to this taxid. -/
def TaxTree.counts : TaxTree → Nat
  | .mk c _ _ _ _ => c

/-- Field taxlevel: rank looked up at creation time. -/
def TaxTree.taxlevel : TaxTree → Rank
  | .mk _ r _ _ _ => r

/-- Field score. -/
def TaxTree.score : TaxTree → Score
  | .mk _ _ s _ _ => s

/-- Field acc: accumulated counts, populated by shape. -/
def TaxTree.acc : TaxTree → Nat
  | .mk _ _ _ a _ => a

/-- The children dict of the node. -/
def TaxTree.children : TaxTree → TaxForest
  | .mk _ _ _ _ f => f

/-- Key membership in the children dict (Python: target in self[tid]). -/
def TaxForest.hasKey : TaxForest → TaxId → Bool
  | .nil, _ => false
  | .cons tid _ rest, x => x == tid || rest.hasKey x

/-- Sum of the acc fields of the trees of a forest. -/
def TaxForest.accSum : TaxForest → Nat
  | .nil => 0
  | .cons _ t rest => t.acc + accSum rest

/-- The per-child contribution of the score recomputation of shape
(trees.py lines 300-301): score times acc divided by the acc a of the
parent, summed over the children dict. -/
def TaxForest.weightedScoreSum : TaxForest → Nat → Score
  | .nil, _ => 0
  | .cons _ t rest, a => t.score * (t.acc : Score) / (a : Score) + weightedScoreSum rest a

/-- Numerator of the weighted average: sum of score times acc. -/
def TaxForest.scoreMass : TaxForest → Score
  | .nil => 0
  | .cons _ t rest => t.score * (t.acc : Score) + scoreMass rest

mutual

/-- Total of the counts fields over all nodes of the tree. -/
def TaxTree.totalCounts : TaxTree → Nat
  | .mk c _ _ _ f => c + TaxForest.totalCounts f

/-- Total of the counts fields over all nodes of a forest. -/
def TaxForest.totalCounts : TaxForest → Nat
  | .nil => 0
  | .cons _ t rest => t.totalCounts + TaxForest.totalCounts rest

end

mutual

/-- Every node of the tree (the tree itself and, recursively, the nodes
of its subtrees), in preorder. -/
def TaxTree.allNodes : TaxTree → List TaxTree
  | .mk c r s a f => .mk c r s a f :: TaxForest.allNodes f

/-- Every node of every tree of the forest. -/
def TaxForest.allNodes : TaxForest → List TaxTree
  | .nil => []
  | .cons _ t rest => t.allNodes ++ TaxForest.allNodes rest

end

mutual

/-- TaxTree.shape (trees.py lines 278-306).  Initialize acc with counts;
for each child in order, shape it, then drop it if its acc is zero and
otherwise accumulate its acc; after the loop, if the node has no direct
counts but a nonzero acc, set score to the acc-weighted sum of the scores
of the remaining children. -/
def TaxTree.shape : TaxTree → TaxTree
  | .mk counts taxlevel score _ children =>
    let kept := TaxForest.shapeF children
    let acc := counts + kept.accSum
    let score' :=
      if counts = 0 then
        if acc ≠ 0 then kept.weightedScoreSum acc else score
      else score
    .mk counts taxlevel score' acc kept

/-- The loop of shape over the children dict: shape each child, pop the
ones whose acc is zero, keep the others in order. -/
def TaxForest.shapeF : TaxForest → TaxForest
  | .nil => .nil
  | .cons tid t rest =>
    let t' := t.shape
    if t'.acc = 0 then TaxForest.shapeF rest
    else .cons tid t' (TaxForest.shapeF rest)

end

/-- The rank test of the pruning condition (trees.py lines 336-338):
min_rank is set, and the taxlevel of the candidate leaf is strictly below
min_rank or the taxlevel of this node is at or below min_rank. -/
def rankBelow (minRank : Option Rank) (selfLevel childLevel : Rank) : Bool :=
  match minRank with
  | none => false
  | some r => childLevel < r || selfLevel ≤ r

mutual

/-- TaxTree.prune (trees.py lines 308-360).  The Python method mutates the
fields counts, score and acc of self while looping over the children;
pruneF threads those fields through the loop and this wrapper rebuilds the
node from their final values. -/
def TaxTree.prune (minTaxa : Nat) (minRank : Option Rank) (collapse : Bool) :
    TaxTree → TaxTree
  | .mk counts taxlevel score acc children =>
    let r := TaxForest.pruneF minTaxa minRank collapse taxlevel counts score acc children
    .mk r.1 taxlevel r.2.1 r.2.2.1 r.2.2.2

/-- The loop of prune over the children dict (trees.py lines 327-359).
For each child: prune it first; if it still has branches keep it;
otherwise, if it is low abundant or below the rank floor, with collapse
fold its counts into this node (recomputing the score as the count
weighted average when the combined counts are nonzero) and drop it, and
without collapse decrement acc (floored at zero) and drop it; else keep
the leaf.  Returns the final counts, score, acc and surviving children. -/
def TaxForest.pruneF (minTaxa : Nat) (minRank : Option Rank) (collapse : Bool)
    (taxlevel : Rank) (counts : Nat) (score : Score) (acc : Nat) :
    TaxForest → Nat × Score × Nat × TaxForest
  | .nil => (counts, score, acc, .nil)
  | .cons tid c rest =>
    let c' := c.prune minTaxa minRank collapse
    if c.children ≠ .nil ∧ c'.children ≠ .nil then
      let r := TaxForest.pruneF minTaxa minRank collapse taxlevel counts score acc rest
      (r.1, r.2.1, r.2.2.1, .cons tid c' r.2.2.2)
    else
      if c'.counts < minTaxa ∨ rankBelow minRank taxlevel c'.taxlevel then
        if collapse then
          let collapsedCounts := counts + c'.counts
          if collapsedCounts ≠ 0 then
            TaxForest.pruneF minTaxa minRank collapse taxlevel collapsedCounts
              ((score * (counts : Score) + c'.score * (c'.counts : Score))
                / (collapsedCounts : Score)) acc rest
          else
            TaxForest.pruneF minTaxa minRank collapse taxlevel counts score acc rest
        else
          TaxForest.pruneF minTaxa minRank collapse taxlevel counts score
            (if acc > c'.counts then acc - c'.counts else 0) rest
      else
        let r := TaxForest.pruneF minTaxa minRank collapse taxlevel counts score acc rest
        (r.1, r.2.1, r.2.2.1, .cons tid c' r.2.2.2)

end

mutual

/-- TaxTree.get_taxa (trees.py lines 149-216) restricted to the abundance
output, the one the claims quantify over: the (taxid, counts) pairs it
records, in recording order.  Both depth arguments are decremented once
per level; a call entered with maxdepth exactly 1 does nothing. -/
def TaxTree.get_taxa (mindepth maxdepth : Int) (incl excl : List TaxId)
    (justLevel : Option Rank) (inBranch : Bool) : TaxTree → List (TaxId × Nat)
  | .mk _ _ _ _ children =>
    if maxdepth ≠ 1 then
      TaxForest.getTaxaF (mindepth - 1) (maxdepth - 1) incl excl justLevel
        inBranch children
    else []

/-- The loop of get_taxa over the children dict (trees.py lines 193-216):
compute the in-branch flag of the child, record it when the depth window
and the filters allow, and recurse into it when it has children. -/
def TaxForest.getTaxaF (mindepth maxdepth : Int) (incl excl : List TaxId)
    (justLevel : Option Rank) (inBranch : Bool) : TaxForest → List (TaxId × Nat)
  | .nil => []
  | .cons tid c rest =>
    let inBranch' : Bool :=
      (inBranch || incl.isEmpty || incl.contains tid) && !(excl.contains tid)
    let here :=
      if mindepth ≤ 0 ∧ inBranch' ∧ (justLevel = none ∨ justLevel = some c.taxlevel)
      then [(tid, c.counts)] else []
    let below :=
      if c.children ≠ .nil then
        c.get_taxa mindepth maxdepth incl excl justLevel inBranch'
      else []
    here ++ below
      ++ TaxForest.getTaxaF mindepth maxdepth incl excl justLevel inBranch rest

end

mutual

/-- TaxTree.trace (trees.py lines 83-112): depth-first search for target,
collecting the taxids from self to target into nodes; returns the success
flag and the resulting nodes list.  A failed Python call pops everything
it appended, so failure returns nodes as given. -/
def TaxTree.trace (target : TaxId) (nodes : List TaxId) :
    TaxTree → Bool × List TaxId
  | .mk _ _ _ _ children => TaxForest.traceF target nodes children

/-- The loop of trace over the children dict (trees.py lines 99-111):
children without descendants are skipped; for each child with
descendants, append its taxid, succeed at once when target is one of its
keys (and is not ROOT), else recurse into it, restoring nodes and moving
to the next sibling on failure. -/
def TaxForest.traceF (target : TaxId) (nodes : List TaxId) :
    TaxForest → Bool × List TaxId
  | .nil => (false, nodes)
  | .cons tid c rest =>
    if c.children ≠ .nil then
      if c.children.hasKey target ∧ target ≠ ROOT then
        (true, (nodes ++ [tid]) ++ [target])
      else
        let r := c.trace target (nodes ++ [tid])
        if r.1 then r else TaxForest.traceF target nodes rest
    else TaxForest.traceF target nodes rest

end

/-- The warning written by get_lineage for a taxid missing from the
parents dict (trees.py lines 144-145). -/
def warnUnknown (tid : TaxId) : String :=
  "[\x1b[93mWARNING\x1b[0m: Discarded unknown taxid " ++ toString tid
    ++ ": missing in parents]\n"

/-- The warning written by get_lineage for a taxid that could not be
traced in the tree (trees.py lines 141-142). -/
def warnTrace (tid : TaxId) : String :=
  "[\x1b[93mWARNING\x1b[0m: Failed tracing of taxid " ++ toString tid
    ++ ": missing in tree]\n"

/-- The loop of get_lineage over the requested taxids (trees.py lines
133-145): ROOT is special-cased, a taxid missing from parents is
discarded with a warning, a taxid that fails tracing is skipped with a
warning, and a traced taxid contributes its nodes list.  Returns the
warnings and the nodes_traced entries, both in processing order. -/
def TaxTree.getLineageAux (t : TaxTree) (parents : List (TaxId × TaxId)) :
    List TaxId → List String × List (TaxId × List TaxId)
  | [] => ([], [])
  | tid :: rest =>
    let r := t.getLineageAux parents rest
    if tid = ROOT then (r.1, (ROOT, [ROOT]) :: r.2)
    else if (parents.lookup tid).isSome then
      let tr := t.trace tid []
      if tr.1 then (r.1, (tid, tr.2) :: r.2)
      else (warnTrace tid :: r.1, r.2)
    else (warnUnknown tid :: r.1, r.2)

/-- TaxTree.get_lineage (trees.py lines 114-147): returns the log (header
line, then the warnings in order, then the OK footer) and the dict from
each successfully traced taxid to the node list from the root to it. -/
def TaxTree.get_lineage (t : TaxTree) (parents : List (TaxId × TaxId))
    (taxids : List TaxId) : List String × List (TaxId × List TaxId) :=
  let r := t.getLineageAux parents taxids
  ("  \x1b[90mGetting lineage of taxa...\x1b[0m" :: r.1
    ++ ["\x1b[92m OK! \x1b[0m\n"], r.2)

/-- All taxids occurring in the children map of the taxonomy, keys and
listed children alike: the finite universe the growth recursion can
visit.  Used only as a termination measure. -/
def Taxonomy.taxUniv (tax : Taxonomy) : Finset TaxId :=
  (tax.children.map Prod.fst).toFinset ∪ ((tax.children.map Prod.snd).flatten).toFinset

mutual

/-- TaxTree.grow (trees.py lines 45-81) after input normalization: the
recursive calls always receive the already defaulted abundances and
scores and a nonempty path, so the defaulting of lines 65-70 acts only on
the base call and is modelled in growTop.  If taxid is on path, do
nothing (cycle guard); else create the node for taxid with counts, score
and rank looked up in the inputs, and grow each child the taxonomy lists
for taxid, with taxid appended to path.  Returns the subtree stored at
taxid, or none when the guard rejected it. -/
def TaxTree.grow (tax : Taxonomy) (ab : List (TaxId × Nat))
    (sc : List (TaxId × Score)) (taxid : TaxId) (path : List TaxId) :
    Option TaxTree :=
  if hmem : taxid ∈ path then none
  else
    some (.mk ((ab.lookup taxid).getD 0) (tax.rankOf taxid)
      ((sc.lookup taxid).getD NO_SCORE) 0
      (match h : tax.children.lookup taxid with
       | none => .nil
       | some cs => TaxTree.growChildren tax ab sc cs (path ++ [taxid])))
termination_by ((tax.taxUniv \ path.toFinset).card, 0)
decreasing_by
  apply Prod.Lex.left
  have htid : taxid ∈ tax.taxUniv := by
    have hk : ∀ l : List (TaxId × List TaxId), List.lookup taxid l = some cs →
        taxid ∈ l.map Prod.fst := by
      intro l
      induction l with
      | nil => intro hl; simp [List.lookup] at hl
      | cons p rest ih =>
        obtain ⟨k, v⟩ := p
        intro hl
        rw [List.lookup] at hl
        cases hq : (taxid == k) with
        | true =>
          have hek : taxid = k := by simpa [beq_iff_eq] using hq
          simp [hek]
        | false =>
          rw [hq] at hl
          simp only [List.map_cons, List.mem_cons]
          exact Or.inr (ih hl)
    simp only [Taxonomy.taxUniv, Finset.mem_union, List.mem_toFinset]
    exact Or.inl (hk tax.children h)
  have hset : tax.taxUniv \ (path ++ [taxid]).toFinset
      = (tax.taxUniv \ path.toFinset).erase taxid := by
    ext x
    simp only [Finset.mem_sdiff, Finset.mem_erase, List.toFinset_append,
      Finset.mem_union, List.mem_toFinset, List.mem_singleton]
    tauto
  rw [hset]
  exact Finset.card_erase_lt_of_mem (Finset.mem_sdiff.mpr ⟨htid, by simpa using hmem⟩)

/-- The loop of grow over the children the taxonomy lists for a taxid:
grow each, keeping the subtrees the cycle guard admitted. -/
def TaxTree.growChildren (tax : Taxonomy) (ab : List (TaxId × Nat))
    (sc : List (TaxId × Score)) (cs : List TaxId) (path : List TaxId) :
    TaxForest :=
  match cs with
  | [] => .nil
  | c :: rest =>
    match TaxTree.grow tax ab sc c path with
    | none => TaxTree.growChildren tax ab sc rest path
    | some t => .cons c t (TaxTree.growChildren tax ab sc rest path)
termination_by ((tax.taxUniv \ path.toFinset).card, cs.length + 1)
decreasing_by
  all_goals
    apply Prod.Lex.right
    simp only [List.length_cons]
    omega

end

/-- The defaulting of missing inputs at the base call of grow (trees.py
lines 65-70: a None or empty abundances counter becomes the counter with
ROOT mapped to 1; None scores become the empty dict) followed by the base
call at taxid ROOT with the empty path. -/
def TaxTree.growTop (tax : Taxonomy) (ab : Option (List (TaxId × Nat)))
    (sc : Option (List (TaxId × Score))) : Option TaxTree :=
  let ab' := match ab with
    | none => [(ROOT, 1)]
    | some l => if l = [] then [(ROOT, 1)] else l
  let sc' := match sc with
    | none => ([] : List (TaxId × Score))
    | some l => l
  TaxTree.grow tax ab' sc' ROOT []

mutual

/-- Every root-to-node taxid path of a tree whose own taxid is tid: the
path to the tree itself, and tid prepended to every path of every
subtree. -/
def TaxTree.treePaths (tid : TaxId) : TaxTree → List (List TaxId)
  | .mk _ _ _ _ children =>
    [tid] :: (TaxForest.forestPaths children).map (tid :: ·)

/-- Every root-to-node taxid path of every tree of the forest. -/
def TaxForest.forestPaths : TaxForest → List (List TaxId)
  | .nil => []
  | .cons tid t rest => t.treePaths tid ++ TaxForest.forestPaths rest

end

mutual

/-- A node of the multi-sample tree (class MultiTree of trees.py): counts,
accs and score hold one slot per sample, in the fixed sample order. -/
inductive MultiTree : Type where
  | mk (counts : List Nat) (taxlevel : Rank) (accs : List Nat)
      (score : List Score) (children : MultiForest) : MultiTree
deriving DecidableEq

/-- The dict part of a MultiTree: ordered association list from child
taxid to subtree. -/
inductive MultiForest : Type where
  | nil : MultiForest
  | cons (tid : TaxId) (t : MultiTree) (rest : MultiForest) : MultiForest
deriving DecidableEq

end

/-- Per-sample counts of the multi-sample node. -/
def MultiTree.counts : MultiTree → List Nat
  | .mk c _ _ _ _ => c

/-- Per-sample accumulated counts of the multi-sample node. -/
def MultiTree.accs : MultiTree → List Nat
  | .mk _ _ a _ _ => a

/-- Per-sample scores of the multi-sample node. -/
def MultiTree.score : MultiTree → List Score
  | .mk _ _ _ s _ => s

/-- The children dict of the multi-sample node. -/
def MultiTree.children : MultiTree → MultiForest
  | .mk _ _ _ _ f => f

/-- Lookup of the subtree stored under a taxid in a multi-sample forest. -/
def MultiForest.lookup : MultiForest → TaxId → Option MultiTree
  | .nil, _ => none
  | .cons tid t rest, x => if x = tid then some t else rest.lookup x

mutual

/-- MultiTree.grow (trees.py lines 417-475) after input normalization,
with the samples numbered 0 to n-1 in their fixed order and the
per-sample abundances, accumulated counts and scores given as association
lists per sample index: if taxid is on path do nothing (cycle guard);
else gather the per-sample values for taxid and, iff any sample has a
nonzero accumulated count, create the node and grow the children the
taxonomy lists for taxid. -/
def MultiTree.grow (tax : Taxonomy) (n : Nat) (ab accs : Nat → List (TaxId × Nat))
    (sc : Nat → List (TaxId × Score)) (taxid : TaxId) (path : List TaxId) :
    Option MultiTree :=
  if hmem : taxid ∈ path then none
  else
    let multiCount := (List.range n).map (fun i => (((ab i).lookup taxid).getD 0))
    let multiAcc := (List.range n).map (fun i => (((accs i).lookup taxid).getD 0))
    let multiScore :=
      (List.range n).map (fun i => (((sc i).lookup taxid).getD NO_SCORE))
    if multiAcc.any (fun x => x != 0) then
      some (.mk multiCount (tax.rankOf taxid) multiAcc multiScore
        (match h : tax.children.lookup taxid with
         | none => .nil
         | some cs => MultiTree.growChildren tax n ab accs sc cs (path ++ [taxid])))
    else none
termination_by ((tax.taxUniv \ path.toFinset).card, 0)
decreasing_by
  apply Prod.Lex.left
  have htid : taxid ∈ tax.taxUniv := by
    have hk : ∀ l : List (TaxId × List TaxId), List.lookup taxid l = some cs →
        taxid ∈ l.map Prod.fst := by
      intro l
      induction l with
      | nil => intro hl; simp [List.lookup] at hl
      | cons p rest ih =>
        obtain ⟨k, v⟩ := p
        intro hl
        rw [List.lookup] at hl
        cases hq : (taxid == k) with
        | true =>
          have hek : taxid = k := by simpa [beq_iff_eq] using hq
          simp [hek]
        | false =>
          rw [hq] at hl
          simp only [List.map_cons, List.mem_cons]
          exact Or.inr (ih hl)
    simp only [Taxonomy.taxUniv, Finset.mem_union, List.mem_toFinset]
    exact Or.inl (hk tax.children h)
  have hset : tax.taxUniv \ (path ++ [taxid]).toFinset
      = (tax.taxUniv \ path.toFinset).erase taxid := by
    ext x
    simp only [Finset.mem_sdiff, Finset.mem_erase, List.toFinset_append,
      Finset.mem_union, List.mem_toFinset, List.mem_singleton]
    tauto
  rw [hset]
  exact Finset.card_erase_lt_of_mem (Finset.mem_sdiff.mpr ⟨htid, by simpa using hmem⟩)

/-- The loop of MultiTree.grow over the children the taxonomy lists for a
taxid: grow each, keeping the subtrees actually created. -/
def MultiTree.growChildren (tax : Taxonomy) (n : Nat)
    (ab accs : Nat → List (TaxId × Nat)) (sc : Nat → List (TaxId × Score))
    (cs : List TaxId) (path : List TaxId) : MultiForest :=
  match cs with
  | [] => .nil
  | c :: rest =>
    match MultiTree.grow tax n ab accs sc c path with
    | none => MultiTree.growChildren tax n ab accs sc rest path
    | some t => .cons c t (MultiTree.growChildren tax n ab accs sc rest path)
termination_by ((tax.taxUniv \ path.toFinset).card, cs.length + 1)
decreasing_by
  all_goals
    apply Prod.Lex.right
    simp only [List.length_cons]
    omega

end

/-- Division with an explicit divisor check: some quotient when the
divisor is nonzero, none on a division by zero.  Used to mirror shape and
prune and show that their divisions never hit a zero divisor. -/
def divD (x y : Score) : Option Score :=
  if y = 0 then none else some (x / y)

/-- weightedScoreSum with every per-child division checked by divD. -/
def TaxForest.weightedScoreSumD : TaxForest → Nat → Option Score
  | .nil, _ => some 0
  | .cons _ t rest, a =>
    match divD (t.score * (t.acc : Score)) (a : Score),
        TaxForest.weightedScoreSumD rest a with
    | some q, some s => some (q + s)
    | _, _ => none

mutual

/-- shape with its score division checked by divD (trees.py lines
300-301 divide by self.acc only inside the `if self.acc` guard). -/
def TaxTree.shapeD : TaxTree → Option TaxTree
  | .mk counts taxlevel score _ children =>
    match TaxForest.shapeDF children with
    | none => none
    | some kept =>
      let acc := counts + kept.accSum
      if counts = 0 then
        if acc ≠ 0 then
          match kept.weightedScoreSumD acc with
          | none => none
          | some w => some (.mk counts taxlevel w acc kept)
        else some (.mk counts taxlevel score acc kept)
      else some (.mk counts taxlevel score acc kept)

/-- The loop of shapeD over the children dict. -/
def TaxForest.shapeDF : TaxForest → Option TaxForest
  | .nil => some .nil
  | .cons tid t rest =>
    match TaxTree.shapeD t, TaxForest.shapeDF rest with
    | some t', some rest' =>
      if t'.acc = 0 then some rest' else some (.cons tid t' rest')
    | _, _ => none

end

mutual

/-- prune with its collapse division checked by divD (trees.py lines
341-345 divide by collapsed_counts only inside the `if collapsed_counts`
guard). -/
def TaxTree.pruneD (minTaxa : Nat) (minRank : Option Rank) (collapse : Bool) :
    TaxTree → Option TaxTree
  | .mk counts taxlevel score acc children =>
    match TaxForest.pruneDF minTaxa minRank collapse taxlevel counts score acc
        children with
    | none => none
    | some r => some (.mk r.1 taxlevel r.2.1 r.2.2.1 r.2.2.2)

/-- The loop of pruneD over the children dict. -/
def TaxForest.pruneDF (minTaxa : Nat) (minRank : Option Rank) (collapse : Bool)
    (taxlevel : Rank) (counts : Nat) (score : Score) (acc : Nat) :
    TaxForest → Option (Nat × Score × Nat × TaxForest)
  | .nil => some (counts, score, acc, .nil)
  | .cons tid c rest =>
    match TaxTree.pruneD minTaxa minRank collapse c with
    | none => none
    | some c' =>
      if c.children ≠ .nil ∧ c'.children ≠ .nil then
        match TaxForest.pruneDF minTaxa minRank collapse taxlevel counts score
            acc rest with
        | none => none
        | some r => some (r.1, r.2.1, r.2.2.1, .cons tid c' r.2.2.2)
      else
        if c'.counts < minTaxa ∨ rankBelow minRank taxlevel c'.taxlevel then
          if collapse then
            let collapsedCounts := counts + c'.counts
            if collapsedCounts ≠ 0 then
              match divD (score * (counts : Score) + c'.score * (c'.counts : Score))
                  (collapsedCounts : Score) with
              | none => none
              | some q =>
                TaxForest.pruneDF minTaxa minRank collapse taxlevel
                  collapsedCounts q acc rest
            else
              TaxForest.pruneDF minTaxa minRank collapse taxlevel counts score
                acc rest
          else
            TaxForest.pruneDF minTaxa minRank collapse taxlevel counts score
              (if acc > c'.counts then acc - c'.counts else 0) rest
        else
          match TaxForest.pruneDF minTaxa minRank collapse taxlevel counts score
              acc rest with
          | none => none
          | some r => some (r.1, r.2.1, r.2.2.1, .cons tid c' r.2.2.2)

end

/-! Concrete instances used by witnesses and counterexamples. -/

/-- Four-level chain: the root node, whose only child is A (taxid 2),
whose only child is B (taxid 3), whose only child is C (taxid 4); the
counts of the four nodes are parameters. -/
def chain4 (cr ca cb cc : Nat) : TaxTree :=
  .mk cr 0 0 0 (.cons 2 (.mk ca 0 0 0 (.cons 3 (.mk cb 0 0 0
    (.cons 4 (.mk cc 0 0 0 .nil) .nil)) .nil)) .nil)

/-- The same chain seen from the Python container object, which stores
the root node under the key ROOT. -/
def chain4Container (cr ca cb cc : Nat) : TaxTree :=
  .mk 0 0 0 0 (.cons ROOT (chain4 cr ca cb cc) .nil)

/-- Container tree for the lineage claims: ROOT with child A (taxid 2)
with child B (taxid 3), B a leaf. -/
def lineageTree : TaxTree :=
  .mk 0 0 0 0 (.cons ROOT (.mk 0 0 0 0 (.cons 2 (.mk 0 0 0 0
    (.cons 3 (.mk 1 0 0 0 .nil) .nil)) .nil)) .nil)

/-- Parents map of lineageTree: A descends from ROOT, B from A. -/
def lineageParents : List (TaxId × TaxId) := [(2, ROOT), (3, 2)]

/-- Small sample tree for the shape witnesses: a root with no direct
counts and two scored leaves with counts 3 and 1. -/
def shapeExample : TaxTree :=
  .mk 0 0 0 0 (.cons 2 (.mk 3 0 5 0 .nil) (.cons 3 (.mk 1 0 9 0 .nil) .nil))

/-- Taxonomy with a self-referencing child (1 lists itself) and a
back-referencing child (2 lists 1): exercises the cycle guard. -/
def cycleTax : Taxonomy :=
  ⟨[(1, [2, 1]), (2, [2, 1, 3])], fun _ => 0⟩

/-- Taxonomy of the multi-sample merge example: ROOT with single child 2. -/
def unionTax : Taxonomy := ⟨[(1, [2])], fun _ => 0⟩

/-- Per-sample abundances of the merge example: sample 0 assigns 2 reads
to ROOT and 3 to taxid 2; sample 1 assigns 5 reads to ROOT only. -/
def unionAb : Nat → List (TaxId × Nat) :=
  fun i => if i = 0 then [(1, 2), (2, 3)] else [(1, 5)]

/-- Per-sample accumulated counts of the merge example: taxid 2 has acc 3
in sample 0 and no entry (acc 0) in sample 1. -/
def unionAccs : Nat → List (TaxId × Nat) :=
  fun i => if i = 0 then [(1, 5), (2, 3)] else [(1, 5)]

/-- Per-sample scores of the merge example: none supplied. -/
def unionSc : Nat → List (TaxId × Score) := fun _ => []

/-! Theorems.  First the projection lemmas and the basic accumulation
facts about shape, then the claims. -/

@[simp] theorem TaxTree.counts_mk (c : Nat) (r : Rank) (s : Score) (a : Nat)
    (f : TaxForest) : (TaxTree.mk c r s a f).counts = c := rfl

@[simp] theorem TaxTree.taxlevel_mk (c : Nat) (r : Rank) (s : Score) (a : Nat)
    (f : TaxForest) : (TaxTree.mk c r s a f).taxlevel = r := rfl

@[simp] theorem TaxTree.score_mk (c : Nat) (r : Rank) (s : Score) (a : Nat)
    (f : TaxForest) : (TaxTree.mk c r s a f).score = s := rfl

@[simp] theorem TaxTree.acc_mk (c : Nat) (r : Rank) (s : Score) (a : Nat)
    (f : TaxForest) : (TaxTree.mk c r s a f).acc = a := rfl

@[simp] theorem TaxTree.children_mk (c : Nat) (r : Rank) (s : Score) (a : Nat)
    (f : TaxForest) : (TaxTree.mk c r s a f).children = f := rfl

mutual

/-- After shape, the acc of the node is the total of the counts of the
original tree. -/
theorem TaxTree.shape_acc (t : TaxTree) : t.shape.acc = t.totalCounts := by
  cases t with
  | mk c r s a f =>
    simp only [TaxTree.shape, TaxTree.acc, TaxTree.totalCounts]
    rw [TaxForest.shapeF_accSum f]

/-- After the shape loop, the accumulated accs of the surviving children
total the counts of the original forest. -/
theorem TaxForest.shapeF_accSum (f : TaxForest) :
    (TaxForest.shapeF f).accSum = f.totalCounts := by
  cases f with
  | nil => rfl
  | cons tid t rest =>
    simp only [TaxForest.shapeF, TaxForest.totalCounts]
    by_cases h : t.shape.acc = 0
    · rw [if_pos h, TaxForest.shapeF_accSum rest]
      have ht := TaxTree.shape_acc t
      omega
    · rw [if_neg h]
      simp only [TaxForest.accSum]
      rw [TaxForest.shapeF_accSum rest, TaxTree.shape_acc t]

end

mutual

/-- shape preserves the total of the counts fields (only subtrees whose
total is zero are dropped). -/
theorem TaxTree.totalCounts_shape (t : TaxTree) :
    t.shape.totalCounts = t.totalCounts := by
  cases t with
  | mk c r s a f =>
    simp only [TaxTree.shape, TaxTree.totalCounts]
    rw [TaxForest.totalCounts_shapeF f]

/-- The shape loop preserves the total of the counts fields of a forest. -/
theorem TaxForest.totalCounts_shapeF (f : TaxForest) :
    (TaxForest.shapeF f).totalCounts = f.totalCounts := by
  cases f with
  | nil => rfl
  | cons tid t rest =>
    simp only [TaxForest.shapeF, TaxForest.totalCounts]
    by_cases h : t.shape.acc = 0
    · rw [if_pos h, TaxForest.totalCounts_shapeF rest]
      have h1 := TaxTree.shape_acc t
      have h2 := TaxTree.totalCounts_shape t
      omega
    · rw [if_neg h]
      simp only [TaxForest.totalCounts]
      rw [TaxForest.totalCounts_shapeF rest, TaxTree.totalCounts_shape t]

end

mutual

/-- The total counts of a tree is the sum of the counts over its nodes. -/
theorem TaxTree.totalCounts_eq_sum (t : TaxTree) :
    t.totalCounts = (t.allNodes.map TaxTree.counts).sum := by
  cases t with
  | mk c r s a f =>
    simp only [TaxTree.totalCounts, TaxTree.allNodes, List.map_cons, List.sum_cons,
      TaxTree.counts_mk]
    rw [TaxForest.totalCountsF_eq_sum f]

/-- The total counts of a forest is the sum of the counts over its nodes. -/
theorem TaxForest.totalCountsF_eq_sum (f : TaxForest) :
    f.totalCounts = (f.allNodes.map TaxTree.counts).sum := by
  cases f with
  | nil => rfl
  | cons tid t rest =>
    simp only [TaxForest.totalCounts, TaxForest.allNodes, List.map_append,
      List.sum_append]
    rw [TaxTree.totalCounts_eq_sum t, TaxForest.totalCountsF_eq_sum rest]

end

mutual

/-- Every node of a shaped tree satisfies the accumulation equation. -/
theorem TaxTree.shape_nodes_acc (t : TaxTree) :
    ∀ u ∈ t.shape.allNodes, u.acc = u.counts + u.children.accSum := by
  cases t with
  | mk c r s a f =>
    intro u hu
    simp only [TaxTree.shape, TaxTree.allNodes] at hu
    rcases List.mem_cons.mp hu with h | h
    · subst h
      simp
    · exact TaxForest.shapeF_nodes_acc f u h

/-- Every node of a shaped forest satisfies the accumulation equation. -/
theorem TaxForest.shapeF_nodes_acc (f : TaxForest) :
    ∀ u ∈ (TaxForest.shapeF f).allNodes, u.acc = u.counts + u.children.accSum := by
  cases f with
  | nil =>
    intro u hu
    simp [TaxForest.shapeF, TaxForest.allNodes] at hu
  | cons tid t rest =>
    intro u hu
    simp only [TaxForest.shapeF] at hu
    by_cases h : t.shape.acc = 0
    · rw [if_pos h] at hu
      exact TaxForest.shapeF_nodes_acc rest u hu
    · rw [if_neg h] at hu
      simp only [TaxForest.allNodes] at hu
      rcases List.mem_append.mp hu with h2 | h2
      · exact TaxTree.shape_nodes_acc t u h2
      · exact TaxForest.shapeF_nodes_acc rest u h2

end

/-- C1: for every single-sample tree, after shape every node satisfies
acc = counts plus the accumulated accs of its remaining children, and the
acc of the shaped root equals the sum of the counts over all nodes that
exist after shape. -/
theorem claim_C1_shape_conservation (t : TaxTree) :
    (∀ u ∈ t.shape.allNodes, u.acc = u.counts + u.children.accSum) ∧
    t.shape.acc = (t.shape.allNodes.map TaxTree.counts).sum := by
  refine ⟨TaxTree.shape_nodes_acc t, ?_⟩
  rw [TaxTree.shape_acc t, ← TaxTree.totalCounts_eq_sum, TaxTree.totalCounts_shape]

/-- Witness for C1 at the concrete tree shapeExample: its shaped root
satisfies the accumulation equation. -/
theorem claim_C1_witness :
    shapeExample.shape.acc
      = shapeExample.shape.counts + shapeExample.shape.children.accSum :=
  (claim_C1_shape_conservation shapeExample).1 shapeExample.shape
    (List.mem_cons_self _ _)

mutual

/-- Shaping a shaped tree changes nothing. -/
theorem TaxTree.shape_idem (t : TaxTree) : t.shape.shape = t.shape := by
  cases t with
  | mk c r s a f =>
    have hf := TaxForest.shapeF_idem f
    simp only [TaxTree.shape]
    rw [hf]
    by_cases hc : c = 0
    · by_cases ha : (TaxForest.shapeF f).accSum = 0
      · simp [hc, ha]
      · simp [hc, ha]
    · simp [hc]

/-- Re-running the shape loop on an already shaped forest changes
nothing. -/
theorem TaxForest.shapeF_idem (f : TaxForest) :
    TaxForest.shapeF (TaxForest.shapeF f) = TaxForest.shapeF f := by
  cases f with
  | nil => rfl
  | cons tid t rest =>
    simp only [TaxForest.shapeF]
    by_cases h : t.shape.acc = 0
    · rw [if_pos h]
      exact TaxForest.shapeF_idem rest
    · rw [if_neg h]
      simp only [TaxForest.shapeF]
      rw [TaxTree.shape_idem t, if_neg h, TaxForest.shapeF_idem rest]

end

/-- C4: calling shape twice in sequence yields exactly the same tree as
calling it once: the same node set with the same counts, acc and score
everywhere. -/
theorem claim_C4_shape_idempotent (t : TaxTree) : t.shape.shape = t.shape :=
  TaxTree.shape_idem t

/-- The per-child divisions summed by shape equal the quotient of the
score mass by the common divisor. -/
theorem TaxForest.weightedScoreSum_eq (f : TaxForest) (A : Nat) :
    f.weightedScoreSum A = f.scoreMass / (A : Score) :=
  match f with
  | .nil => by
    simp [TaxForest.weightedScoreSum, TaxForest.scoreMass]
  | .cons tid t rest => by
    simp only [TaxForest.weightedScoreSum, TaxForest.scoreMass]
    rw [TaxForest.weightedScoreSum_eq rest A, add_div, mul_div_assoc]

mutual

/-- Every node of a shaped tree that has no direct counts but nonzero acc
carries the acc-weighted average of the scores of its children. -/
theorem TaxTree.shape_nodes_score (t : TaxTree) :
    ∀ u ∈ t.shape.allNodes, u.counts = 0 → u.acc ≠ 0 →
      u.score = u.children.scoreMass / (u.acc : Score) := by
  cases t with
  | mk c r s a f =>
    intro u hu
    simp only [TaxTree.shape, TaxTree.allNodes] at hu
    rcases List.mem_cons.mp hu with h | h
    · subst h
      intro hc hacc
      simp only [TaxTree.counts_mk] at hc
      simp only [TaxTree.acc_mk] at hacc
      simp only [TaxTree.score_mk, TaxTree.children_mk, TaxTree.acc_mk]
      rw [if_pos hc, if_pos hacc]
      exact TaxForest.weightedScoreSum_eq _ _
    · exact TaxForest.shapeF_nodes_score f u h

/-- Forest version of shape_nodes_score. -/
theorem TaxForest.shapeF_nodes_score (f : TaxForest) :
    ∀ u ∈ (TaxForest.shapeF f).allNodes, u.counts = 0 → u.acc ≠ 0 →
      u.score = u.children.scoreMass / (u.acc : Score) := by
  cases f with
  | nil =>
    intro u hu
    simp [TaxForest.shapeF, TaxForest.allNodes] at hu
  | cons tid t rest =>
    intro u hu
    simp only [TaxForest.shapeF] at hu
    by_cases h : t.shape.acc = 0
    · rw [if_pos h] at hu
      exact TaxForest.shapeF_nodes_score rest u hu
    · rw [if_neg h] at hu
      simp only [TaxForest.allNodes] at hu
      rcases List.mem_append.mp hu with h2 | h2
      · exact TaxTree.shape_nodes_score t u h2
      · exact TaxForest.shapeF_nodes_score rest u h2

end

/-- C5: after shape, a node with zero direct counts and nonzero acc has
its score equal to the acc-weighted average of the scores of its
children, while a node with nonzero direct counts keeps the score it was
given at growth time. -/
theorem claim_C5_internal_scores (t : TaxTree) :
    (t.counts ≠ 0 → t.shape.score = t.score) ∧
    (∀ u ∈ t.shape.allNodes, u.counts = 0 → u.acc ≠ 0 →
      u.score = u.children.scoreMass / (u.acc : Score)) := by
  constructor
  · intro hc
    cases t with
    | mk c r s a f =>
      simp only [TaxTree.counts_mk] at hc
      simp only [TaxTree.shape, TaxTree.score_mk]
      rw [if_neg hc]
  · exact TaxTree.shape_nodes_score t

/-- Witness for C5 at shapeExample: its shaped root has no direct counts,
acc 4, and score equal to its children score mass divided by 4. -/
theorem claim_C5_witness :
    shapeExample.shape.score
      = shapeExample.shape.children.scoreMass / (shapeExample.shape.acc : Score) :=
  (claim_C5_internal_scores shapeExample).2 shapeExample.shape
    (List.mem_cons_self _ _) (by decide) (by decide)

/-- Pruning a leaf node changes nothing: the loop body never runs. -/
theorem TaxTree.prune_leaf (mt : Nat) (mr : Option Rank) (col : Bool) (c : Nat)
    (r : Rank) (s : Score) (a : Nat) :
    (TaxTree.mk c r s a .nil).prune mt mr col = .mk c r s a .nil := rfl

mutual

/-- With collapse enabled, prune preserves the total of the counts
fields: the counts of every removed leaf are folded into its parent. -/
theorem TaxTree.prune_totalCounts (mt : Nat) (mr : Option Rank) (t : TaxTree) :
    (t.prune mt mr true).totalCounts = t.totalCounts := by
  cases t with
  | mk c r s a f =>
    have hf := TaxForest.pruneF_totalCounts mt mr r c s a f
    simp only [TaxTree.prune, TaxTree.totalCounts]
    exact hf

/-- With collapse enabled, the prune loop conserves the running counts of
the node plus the total counts of the processed forest. -/
theorem TaxForest.pruneF_totalCounts (mt : Nat) (mr : Option Rank) (lvl : Rank)
    (pc : Nat) (ps : Score) (pa : Nat) (f : TaxForest) :
    (TaxForest.pruneF mt mr true lvl pc ps pa f).1
      + (TaxForest.pruneF mt mr true lvl pc ps pa f).2.2.2.totalCounts
      = pc + f.totalCounts := by
  cases f with
  | nil => rfl
  | cons tid ch rest =>
    have hc := TaxTree.prune_totalCounts mt mr ch
    simp only [TaxForest.pruneF]
    by_cases h1 : ch.children ≠ .nil ∧ (ch.prune mt mr true).children ≠ .nil
    · rw [if_pos h1]
      have hr := TaxForest.pruneF_totalCounts mt mr lvl pc ps pa rest
      simp only [TaxForest.totalCounts, TaxTree.totalCounts]
      simp only [TaxForest.totalCounts] at hr
      omega
    · rw [if_neg h1]
      have hleaf : (ch.prune mt mr true).children = .nil := by
        by_cases h2 : ch.children = .nil
        · cases ch with
          | mk cc rr ss aa ff =>
            simp only [TaxTree.children_mk] at h2
            subst h2
            rw [TaxTree.prune_leaf]
            rfl
        · rcases not_and_or.mp h1 with h3 | h3
          · exact absurd (not_not.mp h3) h2
          · exact not_not.mp h3
      have hcnt : (ch.prune mt mr true).counts = ch.totalCounts := by
        rw [← hc]
        cases hP : ch.prune mt mr true with
        | mk cc rr ss aa ff =>
          rw [hP] at hleaf
          simp only [TaxTree.children_mk] at hleaf
          subst hleaf
          simp [TaxTree.totalCounts, TaxForest.totalCounts]
      by_cases h2 : (ch.prune mt mr true).counts < mt
          ∨ rankBelow mr lvl (ch.prune mt mr true).taxlevel
      · rw [if_pos h2]
        simp only [if_true]
        by_cases h3 : pc + (ch.prune mt mr true).counts = 0
        · rw [if_neg (not_not.mpr h3)]
          have hr := TaxForest.pruneF_totalCounts mt mr lvl pc ps pa rest
          simp only [TaxForest.totalCounts]
          omega
        · rw [if_pos h3]
          have hr := TaxForest.pruneF_totalCounts mt mr lvl
            (pc + (ch.prune mt mr true).counts)
            ((ps * (pc : Score) + (ch.prune mt mr true).score
              * ((ch.prune mt mr true).counts : Score))
              / ((pc + (ch.prune mt mr true).counts : Nat) : Score)) pa rest
          simp only [TaxForest.totalCounts]
          omega
      · rw [if_neg h2]
        have hr := TaxForest.pruneF_totalCounts mt mr lvl pc ps pa rest
        simp only [TaxForest.totalCounts, TaxTree.totalCounts]
        simp only [TaxForest.totalCounts] at hr
        omega

end

/-- C2: pruning with collapse enabled conserves the total counts of the
surviving tree for every threshold min_taxa (and any optional rank
floor): with min_taxa 1 the totals before and after pruning are equal,
and for any larger threshold the counts are only redistributed toward
ancestors, never reduced. -/
theorem claim_C2_prune_conservation (minTaxa : Nat) (minRank : Option Rank)
    (t : TaxTree) :
    (t.prune minTaxa minRank true).totalCounts = t.totalCounts :=
  TaxTree.prune_totalCounts minTaxa minRank t

/-- When the divisor is nonzero, the checked weighted sum succeeds and
returns the unchecked one. -/
theorem TaxForest.weightedScoreSumD_eq (f : TaxForest) (A : Nat) (hA : A ≠ 0) :
    f.weightedScoreSumD A = some (f.weightedScoreSum A) :=
  match f with
  | .nil => rfl
  | .cons tid t rest => by
    simp only [TaxForest.weightedScoreSumD, TaxForest.weightedScoreSum]
    rw [TaxForest.weightedScoreSumD_eq rest A hA]
    simp only [divD]
    rw [if_neg (by exact_mod_cast hA)]

mutual

/-- shape never divides by zero: its checked variant always succeeds. -/
theorem TaxTree.shapeD_eq (t : TaxTree) : t.shapeD = some t.shape := by
  cases t with
  | mk c r s a f =>
    have hf := TaxForest.shapeDF_eq f
    simp only [TaxTree.shapeD, TaxTree.shape]
    rw [hf]
    dsimp only
    by_cases hc : c = 0
    · by_cases ha : c + (TaxForest.shapeF f).accSum = 0
      · simp [hc, ha ▸ ha, hc ▸ ha]
      · rw [TaxForest.weightedScoreSumD_eq (TaxForest.shapeF f)
          (c + (TaxForest.shapeF f).accSum) ha]
        have ha2 : (TaxForest.shapeF f).accSum ≠ 0 := by
          intro h0
          exact ha (by simp [hc, h0])
        simp [hc, ha2]
    · simp [hc]

/-- The shape loop never divides by zero. -/
theorem TaxForest.shapeDF_eq (f : TaxForest) :
    TaxForest.shapeDF f = some (TaxForest.shapeF f) := by
  cases f with
  | nil => rfl
  | cons tid t rest =>
    simp only [TaxForest.shapeDF, TaxForest.shapeF]
    rw [TaxTree.shapeD_eq t, TaxForest.shapeDF_eq rest]
    by_cases h : t.shape.acc = 0
    · simp [h]
    · simp [h]

end

mutual

/-- prune never divides by zero: its checked variant always succeeds. -/
theorem TaxTree.pruneD_eq (mt : Nat) (mr : Option Rank) (col : Bool)
    (t : TaxTree) : t.pruneD mt mr col = some (t.prune mt mr col) := by
  cases t with
  | mk c r s a f =>
    have hf := TaxForest.pruneDF_eq mt mr col r c s a f
    simp only [TaxTree.pruneD, TaxTree.prune]
    rw [hf]

/-- The prune loop never divides by zero. -/
theorem TaxForest.pruneDF_eq (mt : Nat) (mr : Option Rank) (col : Bool)
    (lvl : Rank) (pc : Nat) (ps : Score) (pa : Nat) (f : TaxForest) :
    TaxForest.pruneDF mt mr col lvl pc ps pa f
      = some (TaxForest.pruneF mt mr col lvl pc ps pa f) := by
  cases f with
  | nil => rfl
  | cons tid ch rest =>
    simp only [TaxForest.pruneDF, TaxForest.pruneF]
    rw [TaxTree.pruneD_eq mt mr col ch]
    dsimp only
    by_cases h1 : ch.children ≠ .nil ∧ (ch.prune mt mr col).children ≠ .nil
    · rw [if_pos h1, if_pos h1, TaxForest.pruneDF_eq mt mr col lvl pc ps pa rest]
    · rw [if_neg h1, if_neg h1]
      by_cases h2 : (ch.prune mt mr col).counts < mt
          ∨ rankBelow mr lvl (ch.prune mt mr col).taxlevel
      · rw [if_pos h2, if_pos h2]
        cases col with
        | false =>
          simp only [Bool.false_eq_true, if_false]
          exact TaxForest.pruneDF_eq mt mr false lvl pc ps
            (if pa > (ch.prune mt mr false).counts
             then pa - (ch.prune mt mr false).counts else 0) rest
        | true =>
          simp only [if_true]
          by_cases h3 : pc + (ch.prune mt mr true).counts = 0
          · rw [if_neg (not_not.mpr h3), if_neg (not_not.mpr h3)]
            exact TaxForest.pruneDF_eq mt mr true lvl pc ps pa rest
          · rw [if_pos h3, if_pos h3]
            simp only [divD]
            rw [if_neg (by exact_mod_cast h3)]
            exact TaxForest.pruneDF_eq mt mr true lvl
              (pc + (ch.prune mt mr true).counts) _ pa rest
      · rw [if_neg h2, if_neg h2, TaxForest.pruneDF_eq mt mr col lvl pc ps pa rest]

end

/-- In the collapse branch with combined counts zero (both the node and
the candidate leaf have zero counts), the leaf is still removed but the
counts and score of the node are left untouched. -/
theorem TaxForest.pruneF_zero_zero (mt : Nat) (mr : Option Rank) (lvl : Rank)
    (ps : Score) (pa : Nat) (tid : TaxId) (c : TaxTree) (rest : TaxForest)
    (hleaf : (c.prune mt mr true).children = .nil)
    (hcond : (c.prune mt mr true).counts < mt
      ∨ rankBelow mr lvl (c.prune mt mr true).taxlevel)
    (hc0 : (c.prune mt mr true).counts = 0) :
    TaxForest.pruneF mt mr true lvl 0 ps pa (.cons tid c rest)
      = TaxForest.pruneF mt mr true lvl 0 ps pa rest := by
  simp only [TaxForest.pruneF]
  rw [if_neg (not_and_or.mpr (Or.inr (not_not.mpr hleaf))), if_pos hcond]
  simp only [if_true]
  rw [if_neg (by simp [hc0])]

/-- C10: the weighted-average score divisions of shape and of prune are
performed only under their nonzero-divisor guards, so the checked
variants (which fail on any zero divisor) always succeed and agree with
the originals; and in the collapse branch with a zero combined count the
child is still removed while the counts and score of the parent stay
unchanged. -/
theorem claim_C10_no_division_by_zero :
    (∀ t : TaxTree, t.shapeD = some t.shape) ∧
    (∀ (mt : Nat) (mr : Option Rank) (col : Bool) (t : TaxTree),
      t.pruneD mt mr col = some (t.prune mt mr col)) ∧
    (∀ (mt : Nat) (mr : Option Rank) (lvl : Rank) (ps : Score) (pa : Nat)
      (tid : TaxId) (c : TaxTree) (rest : TaxForest),
      (c.prune mt mr true).children = .nil →
      ((c.prune mt mr true).counts < mt
        ∨ rankBelow mr lvl (c.prune mt mr true).taxlevel) →
      (c.prune mt mr true).counts = 0 →
      TaxForest.pruneF mt mr true lvl 0 ps pa (.cons tid c rest)
        = TaxForest.pruneF mt mr true lvl 0 ps pa rest) :=
  ⟨TaxTree.shapeD_eq, TaxTree.pruneD_eq,
    fun mt mr lvl ps pa tid c rest h1 h2 h3 =>
      TaxForest.pruneF_zero_zero mt mr lvl ps pa tid c rest h1 h2 h3⟩

/-- Witness for C10: collapsing a zero-count leaf under a zero-count node
removes the leaf and leaves the node state unchanged. -/
theorem claim_C10_witness :
    TaxForest.pruneF 1 none true 0 0 7 9
        (.cons 5 (.mk 0 0 0 0 .nil) .nil)
      = TaxForest.pruneF 1 none true 0 0 7 9 .nil :=
  claim_C10_no_division_by_zero.2.2 1 none 0 7 9 5 (.mk 0 0 0 0 .nil) .nil
    (by decide) (by decide) (by decide)

/-- Both halves of the growth/no-duplicate invariant, by the functional
induction of grow: a subtree grown at taxid below a duplicate-free path
only contains root-to-node paths that stay duplicate-free even when
prefixed with that path. -/
theorem TaxTree.grow_nodup_all (tax : Taxonomy) (ab : List (TaxId × Nat))
    (sc : List (TaxId × Score)) :
    (∀ (taxid : TaxId) (path : List TaxId), path.Nodup →
      ∀ t, TaxTree.grow tax ab sc taxid path = some t →
        ∀ p ∈ TaxTree.treePaths taxid t, (path ++ p).Nodup) ∧
    (∀ (cs path : List TaxId), path.Nodup →
      ∀ p ∈ TaxForest.forestPaths (TaxTree.growChildren tax ab sc cs path),
        (path ++ p).Nodup) := by
  refine @TaxTree.grow.mutual_induct tax ab sc
    (fun taxid path => path.Nodup →
      ∀ t, TaxTree.grow tax ab sc taxid path = some t →
        ∀ p ∈ TaxTree.treePaths taxid t, (path ++ p).Nodup)
    (fun cs path => path.Nodup →
      ∀ p ∈ TaxForest.forestPaths (TaxTree.growChildren tax ab sc cs path),
        (path ++ p).Nodup)
    ?_ ?_ ?_ ?_ ?_
  · intro taxid path hmem hnd t ht
    rw [TaxTree.grow] at ht
    rw [dif_pos hmem] at ht
    exact absurd ht (by simp)
  · intro taxid path hmem ih hnd t ht
    rw [TaxTree.grow] at ht
    rw [dif_neg hmem] at ht
    have ht2 := (Option.some.injEq _ _).mp ht
    subst ht2
    intro p hp
    simp only [TaxTree.treePaths] at hp
    rcases List.mem_cons.mp hp with h | h
    · subst h
      simp [List.nodup_append, hnd, hmem]
    · rcases List.mem_map.mp h with ⟨q, hq, hpq⟩
      subst hpq
      have hnd2 : (path ++ [taxid]).Nodup := by
        simp [List.nodup_append, hnd, hmem]
      cases hcs : List.lookup taxid tax.children with
      | none =>
        rw [hcs] at hq
        simp [TaxForest.forestPaths] at hq
      | some cs =>
        rw [hcs] at hq
        have := ih cs hcs hnd2 q hq
        simpa [List.append_assoc] using this
  · intro path hnd p hp
    simp [TaxTree.growChildren, TaxForest.forestPaths] at hp
  · intro path tid rest hnone ih1 ih2 hnd p hp
    rw [TaxTree.growChildren, hnone] at hp
    exact ih2 hnd p hp
  · intro path tid rest t hsome ih1 ih2 hnd p hp
    rw [TaxTree.growChildren, hsome] at hp
    simp only [TaxForest.forestPaths] at hp
    rcases List.mem_append.mp hp with h | h
    · exact ih1 hnd t hsome p h
    · exact ih2 hnd p h

/-- C3: on every taxonomy graph, including graphs whose children relation
has self-references or back-edges, growth from ROOT terminates (grow is a
total function and the base call always returns a tree) and no taxid
occurs twice on any root-to-node path of the produced tree. -/
theorem claim_C3_cycle_safety (tax : Taxonomy) (ab : List (TaxId × Nat))
    (sc : List (TaxId × Score)) :
    (∃ t, TaxTree.grow tax ab sc ROOT [] = some t) ∧
    (∀ t, TaxTree.grow tax ab sc ROOT [] = some t →
      ∀ p ∈ TaxTree.treePaths ROOT t, p.Nodup) := by
  constructor
  · rw [TaxTree.grow]
    rw [dif_neg (List.not_mem_nil ROOT)]
    exact ⟨_, rfl⟩
  · intro t ht p hp
    have := (TaxTree.grow_nodup_all tax ab sc).1 ROOT [] List.nodup_nil t ht p hp
    simpa using this

/-- C7 counterexample: on the four-level chain root to A to B to C with
one read everywhere, get_taxa with mindepth 2 and maxdepth 2 records
nothing at all, whether called on the root node or on its container, so
in particular it does not record B (taxid 3). -/
theorem claim_C7_counterexample :
    TaxTree.get_taxa 2 2 [] [] none false (chain4 1 1 1 1) = [] ∧
    TaxTree.get_taxa 2 2 [] [] none false (chain4Container 1 1 1 1) = [] ∧
    ¬∃ n, (3, n) ∈ TaxTree.get_taxa 2 2 [] [] none false (chain4 1 1 1 1) := by
  refine ⟨by decide, by decide, ?_⟩
  intro ⟨n, hn⟩
  rw [show TaxTree.get_taxa 2 2 [] [] none false (chain4 1 1 1 1) = []
    from by decide] at hn
  exact absurd hn (List.not_mem_nil _)

/-- C7 amended: on every four-level chain root to A to B to C (counts
arbitrary), get_taxa on the root node with mindepth 2 and maxdepth 3
records exactly the depth-2 node B with its counts and never root, A or
C, while the originally claimed maxdepth 2 records nothing: maxdepth
reaching 1 stops the level before recording, so depth d needs maxdepth at
least d + 1. -/
theorem claim_C7_depth_bounds (cr ca cb cc : Nat) :
    TaxTree.get_taxa 2 3 [] [] none false (chain4 cr ca cb cc) = [(3, cb)] ∧
    TaxTree.get_taxa 2 2 [] [] none false (chain4 cr ca cb cc) = [] := by
  exact ⟨rfl, rfl⟩

/-- A taxid missing from parents never receives a nodes_traced entry. -/
theorem TaxTree.getLineageAux_lookup_none (t : TaxTree)
    (parents : List (TaxId × TaxId)) (taxids : List TaxId) (tid : TaxId)
    (hp : parents.lookup tid = none) (hr : tid ≠ ROOT) :
    ((t.getLineageAux parents taxids).2).lookup tid = none := by
  induction taxids with
  | nil => rfl
  | cons x rest ih =>
    simp only [TaxTree.getLineageAux]
    by_cases hx : x = ROOT
    · rw [if_pos hx]
      dsimp only
      rw [List.lookup]
      have hne : (tid == ROOT) = false := by simpa using hr
      rw [hne]
      exact ih
    · rw [if_neg hx]
      by_cases hs : (parents.lookup x).isSome = true
      · rw [if_pos hs]
        have hxt : (tid == x) = false := by
          simp only [beq_eq_false_iff_ne, ne_eq]
          intro he
          rw [← he, hp] at hs
          simp at hs
        by_cases htr : (t.trace x []).1 = true
        · rw [if_pos htr]
          dsimp only
          rw [List.lookup, hxt]
          exact ih
        · rw [if_neg htr]
          dsimp only
          exact ih
      · rw [if_neg hs]
        dsimp only
        exact ih

/-- A requested taxid missing from parents produces its warning in the
log while the loop keeps running. -/
theorem TaxTree.getLineageAux_warn_mem (t : TaxTree)
    (parents : List (TaxId × TaxId)) (taxids : List TaxId) (tid : TaxId)
    (hmem : tid ∈ taxids) (hp : parents.lookup tid = none) (hr : tid ≠ ROOT) :
    warnUnknown tid ∈ (t.getLineageAux parents taxids).1 := by
  induction taxids with
  | nil => cases hmem
  | cons x rest ih =>
    simp only [TaxTree.getLineageAux]
    rcases List.mem_cons.mp hmem with he | hm
    · subst he
      rw [if_neg hr, if_neg (by simp [hp])]
      dsimp only
      exact List.mem_cons_self _ _
    · by_cases hx : x = ROOT
      · rw [if_pos hx]
        dsimp only
        exact ih hm
      · rw [if_neg hx]
        by_cases hs : (parents.lookup x).isSome = true
        · rw [if_pos hs]
          by_cases htr : (t.trace x []).1 = true
          · rw [if_pos htr]
            dsimp only
            exact ih hm
          · rw [if_neg htr]
            dsimp only
            exact List.mem_cons_of_mem _ (ih hm)
        · rw [if_neg hs]
          dsimp only
          exact List.mem_cons_of_mem _ (ih hm)

/-- Dropping a parents-unknown taxid from the request list leaves the
traced mapping unchanged: every other taxid is still processed. -/
theorem TaxTree.getLineageAux_filter (t : TaxTree)
    (parents : List (TaxId × TaxId)) (taxids : List TaxId) (tid : TaxId)
    (hp : parents.lookup tid = none) (hr : tid ≠ ROOT) :
    (t.getLineageAux parents taxids).2
      = (t.getLineageAux parents (taxids.filter (fun x => x != tid))).2 := by
  induction taxids with
  | nil => rfl
  | cons x rest ih =>
    by_cases he : x = tid
    · subst he
      rw [List.filter_cons_of_neg (by simp)]
      simp only [TaxTree.getLineageAux]
      rw [if_neg hr, if_neg (by simp [hp])]
      dsimp only
      exact ih
    · rw [List.filter_cons_of_pos (by simp [he])]
      simp only [TaxTree.getLineageAux]
      by_cases hx : x = ROOT
      · rw [if_pos hx, if_pos hx]
        dsimp only
        rw [ih]
      · rw [if_neg hx, if_neg hx]
        by_cases hs : (parents.lookup x).isSome = true
        · rw [if_pos hs, if_pos hs]
          by_cases htr : (t.trace x []).1 = true
          · rw [if_pos htr, if_pos htr]
            dsimp only
            rw [ih]
          · rw [if_neg htr, if_neg htr]
            dsimp only
            exact ih
        · rw [if_neg hs, if_neg hs]
          dsimp only
          exact ih

/-- C8: on the chain root to A (taxid 2) to B (taxid 3), get_lineage for
B returns the mapping from B to the node list root, A, B; and for any
taxid absent from the parents map, get_lineage yields no entry for it,
writes its warning into the log, does not fail, and still produces the
same mapping as processing the remaining taxids alone. -/
theorem claim_C8_lineage_correctness :
    (lineageTree.get_lineage lineageParents [3]).2 = [(3, [ROOT, 2, 3])] ∧
    (∀ (t : TaxTree) (parents : List (TaxId × TaxId)) (taxids : List TaxId)
        (tid : TaxId), tid ∈ taxids → parents.lookup tid = none → tid ≠ ROOT →
      ((t.get_lineage parents taxids).2.lookup tid = none ∧
       warnUnknown tid ∈ (t.get_lineage parents taxids).1 ∧
       (t.get_lineage parents taxids).2
         = (t.get_lineage parents (taxids.filter (fun x => x != tid))).2)) := by
  constructor
  · decide
  · intro t parents taxids tid hmem hp hr
    refine ⟨?_, ?_, ?_⟩
    · simpa [TaxTree.get_lineage] using
        TaxTree.getLineageAux_lookup_none t parents taxids tid hp hr
    · simp only [TaxTree.get_lineage]
      exact List.mem_cons_of_mem _ (List.mem_append_left _
        (TaxTree.getLineageAux_warn_mem t parents taxids tid hmem hp hr))
    · simpa [TaxTree.get_lineage] using
        TaxTree.getLineageAux_filter t parents taxids tid hp hr

/-- Witness for C8 with request list B, 99, A where 99 is unknown to the
parents map: no entry for 99, its warning is in the log, and the mapping
is the one for B, A alone. -/
theorem claim_C8_witness :
    (lineageTree.get_lineage lineageParents [3, 99, 2]).2.lookup 99 = none ∧
    warnUnknown 99 ∈ (lineageTree.get_lineage lineageParents [3, 99, 2]).1 ∧
    (lineageTree.get_lineage lineageParents [3, 99, 2]).2
      = (lineageTree.get_lineage lineageParents
          ([3, 99, 2].filter (fun x => x != 99))).2 :=
  claim_C8_lineage_correctness.2 lineageTree lineageParents [3, 99, 2] 99
    (by decide) (by decide) (by decide)

/-- Below a path that already contains ROOT, growth with the defaulted
counter (a single synthetic read at ROOT) creates only zero-count
nodes: the guard keeps ROOT from being revisited. -/
theorem TaxTree.grow_default_zero (tax : Taxonomy) (sc : List (TaxId × Score)) :
    (∀ (taxid : TaxId) (path : List TaxId), ROOT ∈ path →
      ∀ u, TaxTree.grow tax [(ROOT, 1)] sc taxid path = some u →
        u.totalCounts = 0) ∧
    (∀ (cs path : List TaxId), ROOT ∈ path →
      (TaxTree.growChildren tax [(ROOT, 1)] sc cs path).totalCounts = 0) := by
  refine @TaxTree.grow.mutual_induct tax [(ROOT, 1)] sc
    (fun taxid path => ROOT ∈ path →
      ∀ u, TaxTree.grow tax [(ROOT, 1)] sc taxid path = some u →
        u.totalCounts = 0)
    (fun cs path => ROOT ∈ path →
      (TaxTree.growChildren tax [(ROOT, 1)] sc cs path).totalCounts = 0)
    ?_ ?_ ?_ ?_ ?_
  · intro taxid path hmem hroot u hu
    rw [TaxTree.grow, dif_pos hmem] at hu
    cases hu
  · intro taxid path hmem ih hroot u hu
    rw [TaxTree.grow, dif_neg hmem] at hu
    have hne : taxid ≠ ROOT := fun he => hmem (he ▸ hroot)
    have hu2 := (Option.some.injEq _ _).mp hu
    subst hu2
    have hcnt : (List.lookup taxid [(ROOT, 1)]).getD 0 = 0 := by
      rw [List.lookup]
      have hb : (taxid == ROOT) = false := by simpa using hne
      rw [hb]
      rfl
    simp only [TaxTree.totalCounts, hcnt]
    cases hcs : List.lookup taxid tax.children with
    | none => rfl
    | some cs =>
      have h3 := ih cs hcs (by simp [hroot])
      dsimp only
      omega
  · intro path hroot
    rw [TaxTree.growChildren]
    rfl
  · intro path tid rest hnone ih1 ih2 hroot
    rw [TaxTree.growChildren, hnone]
    exact ih2 hroot
  · intro path tid rest t hsome ih1 ih2 hroot
    rw [TaxTree.growChildren, hsome]
    simp only [TaxForest.totalCounts]
    rw [ih1 hroot t hsome, ih2 hroot]

/-- A forest whose counts total zero is entirely dropped by the shape
loop. -/
theorem TaxForest.shapeF_of_totalCounts_zero (f : TaxForest)
    (h : f.totalCounts = 0) : TaxForest.shapeF f = .nil :=
  match f with
  | .nil => rfl
  | .cons tid t rest => by
    simp only [TaxForest.totalCounts] at h
    have h1 : t.totalCounts = 0 := by omega
    have h2 : TaxForest.totalCounts rest = 0 := by omega
    simp only [TaxForest.shapeF]
    rw [if_pos (by rw [TaxTree.shape_acc]; exact h1)]
    exact TaxForest.shapeF_of_totalCounts_zero rest h2

/-- C9: a missing (absent or empty) abundances input to grow defaults to
the counter with the single synthetic count 1 at ROOT, and shaping the
grown tree then leaves exactly one node, carrying counts 1 and acc 1. -/
theorem claim_C9_default_abundance (tax : Taxonomy)
    (ab : Option (List (TaxId × Nat))) (sc : Option (List (TaxId × Score)))
    (hab : ab = none ∨ ab = some []) :
    TaxTree.growTop tax ab sc = TaxTree.growTop tax (some [(ROOT, 1)]) sc ∧
    (∀ t, TaxTree.growTop tax ab sc = some t →
      t.shape.counts = 1 ∧ t.shape.acc = 1 ∧ t.shape.children = .nil) := by
  have hgrow : TaxTree.growTop tax ab sc
      = TaxTree.grow tax [(ROOT, 1)]
          (match sc with | none => [] | some l => l) ROOT [] := by
    rcases hab with h | h <;> subst h <;> rfl
  constructor
  · rw [hgrow]
    rfl
  · have main : ∀ (scl : List (TaxId × Score)) (t : TaxTree),
        TaxTree.grow tax [(ROOT, 1)] scl ROOT [] = some t →
        t.shape.counts = 1 ∧ t.shape.acc = 1 ∧ t.shape.children = .nil := by
      intro scl t ht
      rw [TaxTree.grow, dif_neg (List.not_mem_nil ROOT)] at ht
      have ht2 := (Option.some.injEq _ _).mp ht
      subst ht2
      have hker : TaxForest.shapeF
          (match h : List.lookup ROOT tax.children with
           | none => TaxForest.nil
           | some cs => TaxTree.growChildren tax [(ROOT, 1)] scl cs
               ([] ++ [ROOT]))
          = .nil := by
        split
        · rfl
        · exact TaxForest.shapeF_of_totalCounts_zero _
            ((TaxTree.grow_default_zero tax scl).2 _ ([] ++ [ROOT]) (by simp))
      refine ⟨by simp [TaxTree.shape], ?_, ?_⟩
      · simp only [TaxTree.shape, TaxTree.acc_mk]
        rw [hker]
        rfl
      · simp only [TaxTree.shape, TaxTree.children_mk]
        exact hker
    intro t ht
    rw [hgrow] at ht
    exact main _ t ht

/-- Witness for C9 on the cyclic taxonomy with absent inputs: growth
behaves as with the defaulted counter. -/
theorem claim_C9_witness :
    TaxTree.growTop cycleTax none none
      = TaxTree.growTop cycleTax (some [(ROOT, 1)]) none :=
  (claim_C9_default_abundance cycleTax none none (Or.inl rfl)).1

/-- C6: MultiTree.grow creates a node for a visited taxid iff at least
one sample has a nonzero accumulated count for it (the call returns none
exactly when the cycle guard rejects the taxid or every sample has acc
zero); and merging the two concrete samples where sample 0 has acc 3 for
taxid 2 while sample 1 has acc 0 for it yields a node for taxid 2, still
present, with counts 0 in the slot of sample 1. -/
theorem claim_C6_multisample_union :
    (∀ (tax : Taxonomy) (n : Nat) (ab accs : Nat → List (TaxId × Nat))
      (sc : Nat → List (TaxId × Score)) (taxid : TaxId) (path : List TaxId),
      MultiTree.grow tax n ab accs sc taxid path = none ↔
        (taxid ∈ path ∨ ∀ i < n, ((accs i).lookup taxid).getD 0 = 0)) ∧
    ((MultiTree.grow unionTax 2 unionAb unionAccs unionSc ROOT []).bind
        (fun m => m.children.lookup 2)).map MultiTree.counts = some [3, 0] := by
  constructor
  · intro tax n ab accs sc taxid path
    rw [MultiTree.grow]
    by_cases hmem : taxid ∈ path
    · rw [dif_pos hmem]
      simp [hmem]
    · rw [dif_neg hmem]
      dsimp only
      by_cases hany : (((List.range n).map
            fun i => (((accs i).lookup taxid).getD 0)).any
          (fun x => x != 0)) = true
      · rw [if_pos hany]
        simp only [hmem, false_or]
        constructor
        · intro hc
          cases hc
        · intro hall
          exfalso
          rcases List.any_eq_true.mp hany with ⟨x, hx, hxne⟩
          rcases List.mem_map.mp hx with ⟨i, hi, hix⟩
          have h0 := hall i (List.mem_range.mp hi)
          rw [hix] at h0
          simp [h0] at hxne
      · rw [if_neg hany]
        simp only [hmem, false_or]
        constructor
        · intro _ i hi
          by_contra hne
          apply hany
          exact List.any_eq_true.mpr
            ⟨_, List.mem_map.mpr ⟨i, List.mem_range.mpr hi, rfl⟩, by simpa using hne⟩
        · intro _
          trivial
  · have h2 : MultiTree.grow unionTax 2 unionAb unionAccs unionSc 2 ([] ++ [ROOT])
        = some (.mk [3, 0] 0 [3, 0] [NO_SCORE, NO_SCORE] .nil) := by
      rw [MultiTree.grow, dif_neg (by decide)]
      simp [unionTax, unionAb, unionAccs, unionSc, List.lookup,
        List.range_succ]
    have h1 : MultiTree.grow unionTax 2 unionAb unionAccs unionSc ROOT []
        = some (.mk [2, 5] 0 [5, 5] [NO_SCORE, NO_SCORE]
            (.cons 2 (.mk [3, 0] 0 [3, 0] [NO_SCORE, NO_SCORE] .nil) .nil)) := by
      rw [MultiTree.grow, dif_neg (by decide)]
      rw [show List.lookup ROOT unionTax.children = some [2] from by decide]
      dsimp only
      rw [MultiTree.growChildren.eq_def]
      dsimp only
      rw [h2]
      rw [MultiTree.growChildren.eq_def]
      dsimp only
      simp [unionTax, unionAb, unionAccs, unionSc, List.lookup, List.range_succ,
        ROOT]
    rw [h1]
    decide

/-- Witness for C6: a taxid for which every sample has zero accumulated
count is dropped by MultiTree.grow. -/
theorem claim_C6_witness :
    MultiTree.grow unionTax 2 unionAb unionAccs unionSc 3 [] = none :=
  (claim_C6_multisample_union.1 unionTax 2 unionAb unionAccs unionSc 3 []).mpr
    (Or.inr (by decide))

/-- Witness for C3 at the cyclic taxonomy cycleTax (1 lists itself among
its children and 2 lists 1 back): growth returns a tree and the deepest
root-to-node path 1, 2, 3 in it is duplicate-free. -/
theorem claim_C3_witness : ([1, 2, 3] : List TaxId).Nodup :=
  (claim_C3_cycle_safety cycleTax [] []).2
    (.mk 0 0 NO_SCORE 0 (.cons 2 (.mk 0 0 NO_SCORE 0
      (.cons 3 (.mk 0 0 NO_SCORE 0 .nil) .nil)) .nil))
    (by
      rw [TaxTree.grow, dif_neg (by decide)]
      rw [show List.lookup ROOT cycleTax.children = some [2, 1] from by decide]
      dsimp only
      rw [TaxTree.growChildren.eq_def]
      dsimp only
      rw [show TaxTree.grow cycleTax [] [] 2 ([] ++ [ROOT]) = some
            (.mk 0 0 NO_SCORE 0 (.cons 3 (.mk 0 0 NO_SCORE 0 .nil) .nil)) from by
        rw [TaxTree.grow, dif_neg (by decide)]
        rw [show List.lookup 2 cycleTax.children = some [2, 1, 3] from by decide]
        dsimp only
        rw [TaxTree.growChildren.eq_def]
        dsimp only
        rw [show TaxTree.grow cycleTax [] [] 2 ([] ++ [ROOT] ++ [2]) = none from by
          rw [TaxTree.grow, dif_pos (by decide)]]
        rw [TaxTree.growChildren.eq_def]
        dsimp only
        rw [show TaxTree.grow cycleTax [] [] 1 ([] ++ [ROOT] ++ [2]) = none from by
          rw [TaxTree.grow, dif_pos (by decide)]]
        rw [TaxTree.growChildren.eq_def]
        dsimp only
        rw [show TaxTree.grow cycleTax [] [] 3 ([] ++ [ROOT] ++ [2]) = some
              (.mk 0 0 NO_SCORE 0 .nil) from by
          rw [TaxTree.grow, dif_neg (by decide)]
          rw [show List.lookup 3 cycleTax.children = none from by decide]
          rfl]
        rw [TaxTree.growChildren.eq_def]
        dsimp only
        rfl]
      rw [TaxTree.growChildren.eq_def]
      dsimp only
      rw [show TaxTree.grow cycleTax [] [] 1 ([] ++ [ROOT]) = none from by
        rw [TaxTree.grow, dif_pos (by decide)]]
      rw [TaxTree.growChildren.eq_def]
      dsimp only
      rfl)
    [1, 2, 3] (by decide)

end Recentrifuge
